import Mathlib

/-!
Verification of the `django-orm-cost` instrumentation library.

This file gives a shallow embedding, in Lean 4, of the parts of the source
that the specification talks about:

* `src/django_orm_cost/tracker.py` — `ORMQueryTracker` (`_wrapper`,
  `__enter__`, `duplicate_summary`, `_normalize_sql`);
* `src/django_orm_cost/decorator.py` — `FieldUsageTracker`
  (`patch_model`, `unpatch_all`), `extract_fields_from_sql`, and the
  analysis loop of `track_orm_cost.wrapper` (prefetch grouping,
  teardown sequencing);
* `src/django_orm_cost/management/commands/orm_cost.py` — `Command.handle`
  and `Command.resolve_target`.

Python strings are modelled as `String` / `List Char`; clock readings and
durations are opaque `Nat` values; Python exceptions are modelled with
`Except`.  Each definition carries a comment pointing at the source lines
it transcribes.
-/

/-! ## Basic character and list utilities (Python string primitives) -/

/-- Python whitespace for `str.split` / `str.strip` / the regex class
`\s`, restricted to ASCII (all inputs in this development are ASCII). -/
def pyIsSpace (c : Char) : Bool :=
  c = ' ' || c = '\t' || c = '\n' || c = '\r' || c = '\x0b' || c = '\x0c'

/-- Case-sensitive list equality test for a pattern against the start of a
text (Python `str.startswith`, used to build substring containment). -/
def listStartsWith : List Char → List Char → Bool
  | [], _ => true
  | _ :: _, [] => false
  | p :: ps, t :: ts => (p = t) && listStartsWith ps ts

/-- Case-insensitive variant of `listStartsWith` (for `re.IGNORECASE`). -/
def listStartsWithCI : List Char → List Char → Bool
  | [], _ => true
  | _ :: _, [] => false
  | p :: ps, t :: ts => (p.toLower = t.toLower) && listStartsWithCI ps ts

/-- Substring containment, Python `pat in text` on strings. -/
def containsSub (pat : List Char) : List Char → Bool
  | [] => listStartsWith pat []
  | c :: rest => listStartsWith pat (c :: rest) || containsSub pat rest

/-- Python `text.split(sep)` for a single-character separator: keeps empty
pieces, `"".split(sep) = [""]`.  Never returns the empty list. -/
def splitOnChar (sep : Char) : List Char → List (List Char)
  | [] => [[]]
  | c :: rest =>
    if c = sep then [] :: splitOnChar sep rest
    else
      match splitOnChar sep rest with
      | [] => [[c]]
      | h :: t => (c :: h) :: t

/-- Accumulator worker for `pySplitWs`. -/
def pySplitWsAux : List Char → List Char → List (List Char)
  | acc, [] => if acc = [] then [] else [acc.reverse]
  | acc, c :: rest =>
    if pyIsSpace c then
      if acc = [] then pySplitWsAux [] rest
      else acc.reverse :: pySplitWsAux [] rest
    else pySplitWsAux (c :: acc) rest

/-- Python `str.split()` with no argument: split on runs of whitespace,
dropping empty pieces. -/
def pySplitWs (l : List Char) : List (List Char) :=
  pySplitWsAux [] l

/-- Python `str.strip()`: drop leading and trailing whitespace. -/
def stripChars (l : List Char) : List Char :=
  ((l.dropWhile pyIsSpace).reverse.dropWhile pyIsSpace).reverse

/-- Association-list lookup (first matching key wins), the access pattern
of the Python `dict`s modelled below. -/
def alookup {α β : Type} [DecidableEq α] : List (α × β) → α → Option β
  | [], _ => none
  | p :: rest, k => if p.1 = k then some p.2 else alookup rest k

/-! ## Statement interceptor — `ORMQueryTracker` (`tracker.py`) -/

/-- One entry of `ORMQueryTracker.queries`: the dict with keys `sql` and
`time` appended by `_wrapper` (`tracker.py` lines 24–27). -/
structure QueryRecord where
  sql : String
  time : Nat
deriving DecidableEq, Repr

/-- `ORMQueryTracker._wrapper` (`tracker.py` lines 18–27).  The underlying
`execute(sql, params, many, context)` call is modelled by its outcome
`outcome : Except ε ρ` (normal return or raised exception) and the
duration measured around it by `duration`.  The Python body is
`try: return execute(...) finally: self.queries.append(...)`: the
`finally` block appends one record on both the normal and the
exceptional path, and alters neither the return value nor the
propagating exception. -/
def trackerWrapperCall {ε ρ : Type} (sql : String) (duration : Nat)
    (outcome : Except ε ρ) (queries : List QueryRecord) :
    Except ε ρ × List QueryRecord :=
  match outcome with
  | Except.ok r => (Except.ok r, queries ++ [⟨sql, duration⟩])
  | Except.error e => (Except.error e, queries ++ [⟨sql, duration⟩])

/-- `ORMQueryTracker._normalize_sql` (`tracker.py` lines 63–64):
`" ".join(sql.split())`. -/
def normalizeSql (s : String) : String :=
  String.intercalate " " ((pySplitWs s.toList).map (fun w => String.mk w))

/-- Occurrence count of `s` in `l`, what `collections.Counter` stores for
key `s` (`tracker.py` line 59). -/
def countOcc (l : List String) (s : String) : Nat :=
  (l.filter (fun x => x = s)).length

/-- The distinct elements of `l` in first-occurrence order: the key order
of `collections.Counter(l)` (a `dict` keyed in insertion order). -/
def firstDedup : List String → List String
  | [] => []
  | a :: rest => a :: (firstDedup rest).filter (fun x => x ≠ a)

/-- `ORMQueryTracker.duplicate_summary` (`tracker.py` lines 55–61):
normalize every recorded statement, count occurrences with `Counter`,
and keep the entries whose count exceeds one.  The resulting `dict` is
modelled as an association list in `Counter` key order. -/
def duplicateSummary (queries : List String) : List (String × Nat) :=
  let normalized := queries.map normalizeSql
  (firstDedup normalized).filterMap
    (fun s => if 1 < countOcc normalized s then some (s, countOcc normalized s) else none)

/-! ## Wrapper-stack model of `connection.execute_wrapper` — `__enter__` -/

/-- The Django connection's stack of installed execute wrappers; trackers
are identified by opaque `Nat` tokens. -/
structure ConnState where
  wrappers : List Nat
deriving DecidableEq, Repr

/-- `ORMQueryTracker.__enter__` (`tracker.py` lines 29–33): it records a
start time and pushes this tracker's `_wrapper` onto the connection's
wrapper stack via `connection.execute_wrapper(...).__enter__()`.  The
body performs no check for an already-active tracker and has no failure
path, so it is modelled as always returning `Except.ok` of the new
stack. -/
def trackerEnter (tid : Nat) (c : ConnState) : Except String ConnState :=
  Except.ok ⟨tid :: c.wrappers⟩

/-! ## Pattern analyzer — the loop of `track_orm_cost.wrapper` -/

/-- The prefetch-continuation test of `decorator.py` lines 139–142:
`" WHERE " in next_sql.upper() and " IN " in next_sql.upper()`. -/
def isPrefetchSql (s : String) : Bool :=
  let u := s.toList.map Char.toUpper
  containsSub " WHERE ".toList u && containsSub " IN ".toList u

/-- One logical unit of the report: a primary statement plus an optional
prefetch continuation (`SQL 1` / `SQL 2` in the printed block). -/
structure LU where
  primary : String
  cont : Option String
deriving DecidableEq, Repr

/-- The statements covered by one logical unit, in order. -/
def LU.members (u : LU) : List String :=
  u.primary :: u.cont.toList

/-- The analysis loop of `track_orm_cost.wrapper`
(`decorator.py` lines 125–183), restricted to its grouping behaviour.
The Boolean argument is the loop's `skip_next` flag: when it is set the
current element was already consumed as a prefetch continuation and the
iteration merely clears the flag (lines 129–131).  Otherwise the loop
emits a unit for the current statement, pairing it with the next
statement when `isPrefetchSql` accepts that next statement
(lines 136–142 and 162–180, which set `skip_next = True`). -/
def scanUnits : Bool → List String → List LU
  | _, [] => []
  | true, _ :: rest => scanUnits false rest
  | false, q :: rest =>
    match rest with
    | [] => [⟨q, none⟩]
    | nq :: _ =>
      if isPrefetchSql nq then ⟨q, some nq⟩ :: scanUnits true rest
      else ⟨q, none⟩ :: scanUnits false rest

/-! ## Column extraction — `extract_fields_from_sql` (`decorator.py` 67–77)

The Python function runs
`re.search(r'SELECT\s+(.*?)\s+FROM', sql, re.IGNORECASE | re.DOTALL)`.
The functions below implement that exact search — leftmost match
position, greedy `\s+` with backtracking, lazy capture group — by direct
backtracking over the character list. -/

/-- After at least one whitespace character of the second `\s+` has been
consumed: succeed if `FROM` (case-insensitively) starts here, or consume
one more whitespace character. -/
def fromAfterWs : List Char → Bool
  | [] => false
  | c :: rest => listStartsWithCI "from".toList (c :: rest) || (pyIsSpace c && fromAfterWs rest)

/-- The tail pattern `\s+FROM`: at least one whitespace character, then
`FROM` (case-insensitive).  Success is all that matters here — the group
is already fixed — so greediness of this `\s+` is irrelevant. -/
def tailOk : List Char → Bool
  | [] => false
  | c :: rest => pyIsSpace c && fromAfterWs rest

/-- The lazy capture group `(.*?)`: the shortest prefix of the input after
which `\s+FROM` matches; `none` when no prefix works. -/
def lazyGroup : List Char → Option (List Char)
  | [] => none
  | c :: rest =>
    if tailOk (c :: rest) then some []
    else
      match lazyGroup rest with
      | some g => some (c :: g)
      | none => none

/-- The greedy first `\s+` once one whitespace character has been
consumed: prefer to consume further whitespace, and on failure backtrack
to starting the capture group at the current position. -/
def wsThen : List Char → Option (List Char)
  | [] => none
  | c :: rest =>
    if pyIsSpace c then
      match wsThen rest with
      | some g => some g
      | none => lazyGroup (c :: rest)
    else lazyGroup (c :: rest)

/-- Continue a match directly after the literal `SELECT`: the first `\s+`
requires at least one whitespace character. -/
def afterSelect : List Char → Option (List Char)
  | [] => none
  | c :: rest => if pyIsSpace c then wsThen rest else none

/-- Attempt the whole pattern at the current position. -/
def matchHere (l : List Char) : Option (List Char) :=
  if listStartsWithCI "select".toList l then afterSelect (l.drop 6) else none

/-- `re.search`: try the pattern at each position, leftmost first, and
return the capture group of the first position where it matches. -/
def reSearch : List Char → Option (List Char)
  | [] => none
  | c :: rest =>
    match matchHere (c :: rest) with
    | some g => some g
    | none => reSearch rest

/-- The per-column cleanup of `decorator.py` line 76:
`col.split('.')[-1].replace('"', '').strip()`. -/
def cleanCol (col : List Char) : String :=
  String.mk (stripChars (((splitOnChar '.' col).getLastD []).filter (fun c => c ≠ '"')))

/-- `extract_fields_from_sql` (`decorator.py` lines 67–77): run the regex
search; with no match return `["*"]`; otherwise split the capture group
on every comma and clean each piece. -/
def extract_fields_from_sql (sql : String) : List String :=
  match reSearch sql.toList with
  | none => ["*"]
  | some g => (splitOnChar ',' g).map cleanCol

/-- Depth-tracking worker for `splitTopLevel`. -/
def splitTopLevelAux : Nat → List Char → List (List Char)
  | _, [] => [[]]
  | d, c :: rest =>
    if c = ',' ∧ d = 0 then [] :: splitTopLevelAux 0 rest
    else
      match splitTopLevelAux (if c = '(' then d + 1 else if c = ')' then d - 1 else d) rest with
      | [] => [[c]]
      | h :: t => (c :: h) :: t

/-- Split on commas that sit at parenthesis depth zero only. -/
def splitTopLevel (l : List Char) : List (List Char) :=
  splitTopLevelAux 0 l

/-- Modelled from the spec: the column extraction as the spec's words
describe it — "locate the projection clause, split on top-level
separators, strip qualifiers/quoting from each expression" — i.e. with
the comma split restricted to top-level (depth-zero) commas.  This
definition exists only for the refinement comparison against
`extract_fields_from_sql`, which is transcribed from the source. -/
def extractFieldsSpecTopLevel (sql : String) : List String :=
  match reSearch sql.toList with
  | none => ["*"]
  | some g => (splitTopLevel g).map cleanCol

/-! ## Object access tracker — `FieldUsageTracker` (`decorator.py` 23–64)

Model classes are identified by `Nat` tokens.  A class's
`__getattribute__` slot holds a `Behavior`: either the pristine Django
implementation for that class (`Behavior.base`) or the closure
`patched_getattribute` built by `patch_model`, which records field reads
and then delegates to the implementation it closed over
(`Behavior.patched`). -/

/-- Identifier of a registered Django model class. -/
abbrev Model := Nat

/-- The value held in a model class's `__getattribute__` slot. -/
inductive Behavior where
  | base : Model → Behavior
  | patched : Behavior → Behavior
deriving DecidableEq, Repr

/-- The process-wide table of `__getattribute__` slots, as an override
list over the pristine default `Behavior.base m`. -/
structure Sys where
  attr : List (Model × Behavior)
deriving DecidableEq, Repr

/-- Read a model class's current `__getattribute__` slot. -/
def Sys.get (s : Sys) (m : Model) : Behavior :=
  (alookup s.attr m).getD (Behavior.base m)

/-- Overwrite a model class's `__getattribute__` slot
(`model.__getattribute__ = ...`). -/
def Sys.set (s : Sys) (m : Model) (b : Behavior) : Sys :=
  ⟨(m, b) :: s.attr⟩

/-- The `_patched_models` dict of a `FieldUsageTracker`
(`decorator.py` line 26): patched model ↦ saved original slot value. -/
structure Tracker where
  patchedModels : List (Model × Behavior)
deriving DecidableEq, Repr

/-- `FieldUsageTracker.patch_model` (`decorator.py` lines 30–54): return
unchanged when the model is already in `_patched_models`; otherwise save
the current slot value as `original_getattribute`, install the wrapping
closure, and record the saved original under the model's key. -/
def patch_model (t : Tracker) (w : Sys) (m : Model) : Tracker × Sys :=
  if (alookup t.patchedModels m).isSome then (t, w)
  else (⟨(m, w.get m) :: t.patchedModels⟩, w.set m (Behavior.patched (w.get m)))

/-- `FieldUsageTracker.unpatch_all` (`decorator.py` lines 61–64): write
every saved original back into its model's slot and clear
`_patched_models`. -/
def unpatch_all (t : Tracker) (w : Sys) : Tracker × Sys :=
  (⟨[]⟩, t.patchedModels.foldl (fun s p => s.set p.1 p.2) w)

/-- The patching loop of `track_orm_cost.wrapper`
(`decorator.py` lines 91–95): a fresh `FieldUsageTracker` patches every
registered model in turn. -/
def applyPatches (w : Sys) (ms : List Model) : Tracker × Sys :=
  ms.foldl (fun p m => patch_model p.1 p.2 m) (⟨[]⟩, w)

/-- The instrumentation-relevant control flow of `track_orm_cost.wrapper`
(`decorator.py` lines 90–112).  Inputs: the registered models, the
initial slot table, and the outcome of `view_func(request, ...)`.
Output: the wrapper's own outcome, the final slot table, and whether the
`post_init` signal receiver is still connected.  The source sequence is
patch all models (94–95), connect the signal (98), call the view inside
`override_settings` (100–109), then disconnect (111) and unpatch (112).
The view call is not inside any `try`/`finally`, so when the view raises
the exception aborts the function body before lines 111–112: the
disconnect and the unpatching never run on that path. -/
def trackWrapper {ρ : Type} (models : List Model) (w : Sys)
    (view : Except String ρ) : Except String ρ × Sys × Bool :=
  let s := applyPatches w models
  match view with
  | Except.error e => (Except.error e, s.2, true)
  | Except.ok r => (Except.ok r, (unpatch_all s.1 s.2).2, false)

/-! ## Management command — `orm_cost.py` -/

/-- A Python object as the command sees it: whether it is callable and the
names of its signature's parameters. -/
structure PyObj where
  callable : Bool
  params : List String
deriving DecidableEq, Repr

/-- The importable modules: module path ↦ (attribute name ↦ object). -/
structure Env where
  modules : List (String × List (String × PyObj))
deriving DecidableEq, Repr

/-- The user-facing error type (`django.core.management.CommandError`);
anything of this type is reported to the user rather than crashing. -/
inductive CmdErr where
  | commandError : String → CmdErr
deriving DecidableEq, Repr

/-- Python `target.split(":", 1)` guarded by `":" not in target`
(`orm_cost.py` lines 84–89): `none` when there is no colon, otherwise
the pieces before and after the first colon. -/
def splitOnceColon (t : String) : Option (String × String) :=
  let cs := t.toList
  if (':' ∈ cs) then
    some (String.mk (cs.takeWhile (fun c => c ≠ ':')),
          String.mk ((cs.dropWhile (fun c => c ≠ ':')).drop 1))
  else none

/-- `Command.resolve_target` (`orm_cost.py` lines 83–101): missing colon,
unknown module (`ModuleNotFoundError`), and missing attribute each raise
`CommandError`; otherwise the attribute's object is returned. -/
def resolve_target (env : Env) (target : String) : Except CmdErr PyObj :=
  match splitOnceColon target with
  | none => Except.error (CmdErr.commandError "Target must be in format module.path:object_name")
  | some (modulePath, objectName) =>
    match alookup env.modules modulePath with
    | none => Except.error (CmdErr.commandError ("Module '" ++ modulePath ++ "' not found."))
    | some attrs =>
      match alookup attrs objectName with
      | none => Except.error (CmdErr.commandError
          ("Object '" ++ objectName ++ "' not found in module '" ++ modulePath ++ "'."))
      | some o => Except.ok o

/-- How `Command.handle` will call the target. -/
inductive CallPlan where
  | withRequest : CallPlan
  | noArgs : CallPlan
deriving DecidableEq, Repr

/-- The argument-preparation phase of `Command.handle`
(`orm_cost.py` lines 23–51): resolve the target, raise `CommandError`
when it is not callable, inject a mock request when `"request"` is among
the parameters, accept a zero-parameter signature, and raise
`CommandError` on any other signature. -/
def handlePrepare (env : Env) (target : String) : Except CmdErr (PyObj × CallPlan) :=
  match resolve_target env target with
  | Except.error m => Except.error m
  | Except.ok o =>
    if o.callable = false then Except.error (CmdErr.commandError "Target is not callable.")
    else if o.params.contains "request" then Except.ok (o, CallPlan.withRequest)
    else if o.params = [] then Except.ok (o, CallPlan.noArgs)
    else Except.error (CmdErr.commandError
      ("Unsupported signature: (" ++ String.intercalate ", " o.params ++ ")"))

/-- The configuration-error condition of the specification: the target
cannot be resolved (missing separator, module not found, or attribute
not found), is not callable, or has a signature other than zero
parameters or a `request` parameter. -/
def configError (env : Env) (target : String) : Bool :=
  match splitOnceColon target with
  | none => true
  | some (modulePath, objectName) =>
    match alookup env.modules modulePath with
    | none => true
    | some attrs =>
      match alookup attrs objectName with
      | none => true
      | some o => !o.callable || (!(o.params.contains "request") && !(o.params.isEmpty))

/-- The printed report of `Command.handle` (`orm_cost.py` lines 78–81). -/
structure Report where
  queryCount : Nat
  dbTime : Nat
  execMs : Nat
deriving DecidableEq, Repr

/-- Whether an `Except` value is an error. -/
def isError {ε α : Type} : Except ε α → Bool
  | Except.error _ => true
  | Except.ok _ => false

/-- `Command.handle` end to end (`orm_cost.py` lines 23–81): prepare the
call (any `CommandError` from that phase propagates); run the target —
its execution is modelled by the oracle `exec`, and by lines 66–69 any
exception `e` it raises becomes
`CommandError ("Execution failed: " ++ e)` — and only on success build
the report from the captured queries and the wall-clock time. -/
def handleCmd (env : Env) (target : String) (exec : CallPlan → Except String Nat)
    (queriesAfter : List QueryRecord) (wall : Nat) : Except CmdErr (Nat × Report) :=
  match handlePrepare env target with
  | Except.error m => Except.error m
  | Except.ok (_, plan) =>
    match exec plan with
    | Except.error e => Except.error (CmdErr.commandError ("Execution failed: " ++ e))
    | Except.ok r =>
      Except.ok (r, ⟨queriesAfter.length, (queriesAfter.map QueryRecord.time).sum, wall⟩)

/-! ## Helper lemmas -/

theorem scanUnits_nil : scanUnits false [] = [] := rfl

theorem scanUnits_singleton (a : String) : scanUnits false [a] = [⟨a, none⟩] := rfl

theorem scanUnits_skip (x : String) (rest : List String) :
    scanUnits true (x :: rest) = scanUnits false rest := rfl

theorem scanUnits_cons_pref (a b : String) (rest : List String)
    (h : isPrefetchSql b = true) :
    scanUnits false (a :: b :: rest) = ⟨a, some b⟩ :: scanUnits false rest := by
  simp [scanUnits, h]

theorem scanUnits_cons_nonpref (a b : String) (rest : List String)
    (h : isPrefetchSql b = false) :
    scanUnits false (a :: b :: rest) = ⟨a, none⟩ :: scanUnits false (b :: rest) := by
  simp [scanUnits, h]

theorem scanUnits_join_aux :
    ∀ (n : Nat) (qs : List String), qs.length ≤ n →
      ((scanUnits false qs).map LU.members).flatten = qs := by
  intro n
  induction n with
  | zero =>
    intro qs h
    have hq : qs = [] := List.eq_nil_of_length_eq_zero (Nat.le_zero.mp h)
    subst hq
    rfl
  | succ n ih =>
    intro qs h
    match qs with
    | [] => rfl
    | [a] => rfl
    | a :: b :: rest =>
      cases hp : isPrefetchSql b with
      | true =>
        rw [scanUnits_cons_pref a b rest hp]
        have hlen : rest.length ≤ n := by
          simp only [List.length_cons] at h
          omega
        simp [LU.members, ih rest hlen]
      | false =>
        rw [scanUnits_cons_nonpref a b rest hp]
        have hlen : (b :: rest).length ≤ n := by
          simp only [List.length_cons] at h ⊢
          omega
        simp [LU.members, ih (b :: rest) hlen]

theorem countOcc_pos_iff_mem (l : List String) (s : String) :
    0 < countOcc l s ↔ s ∈ l := by
  rw [countOcc, ← List.countP_eq_length_filter, List.countP_pos_iff]
  simp

theorem mem_firstDedup (l : List String) (s : String) :
    s ∈ firstDedup l ↔ s ∈ l := by
  induction l with
  | nil => simp [firstDedup]
  | cons a rest ih =>
    simp only [firstDedup, List.mem_cons, List.mem_filter]
    by_cases hs : s = a
    · simp [hs]
    · simp [hs, ih]

theorem nodup_firstDedup (l : List String) : (firstDedup l).Nodup := by
  induction l with
  | nil => exact List.nodup_nil
  | cons a rest ih =>
    refine List.nodup_cons.mpr ⟨?_, ih.filter _⟩
    intro hmem
    have := (List.mem_filter.mp hmem).2
    simp at this

theorem alookup_filterMap_not_mem (cnt : String → Nat) (l : List String) (s : String)
    (h : s ∉ l) :
    alookup (l.filterMap
      (fun t => if 1 < cnt t then some (t, cnt t) else none)) s = none := by
  induction l with
  | nil => rfl
  | cons a rest ih =>
    have hsa : a ≠ s := fun hEq => h (hEq ▸ List.mem_cons_self a rest)
    have hrest : s ∉ rest := fun hmem => h (List.mem_cons_of_mem a hmem)
    by_cases hc : 1 < cnt a
    · simp only [List.filterMap_cons, hc, if_pos hc, alookup]
      rw [if_neg hsa]
      exact ih hrest
    · simp only [List.filterMap_cons, if_neg hc]
      exact ih hrest

theorem alookup_dupAux (cnt : String → Nat) (d : List String) (s : String)
    (hd : d.Nodup) :
    alookup (d.filterMap
      (fun t => if 1 < cnt t then some (t, cnt t) else none)) s
      = if s ∈ d ∧ 1 < cnt s then some (cnt s) else none := by
  induction d with
  | nil => simp [alookup]
  | cons a rest ih =>
    have hnd := List.nodup_cons.mp hd
    by_cases hs : s = a
    · subst hs
      by_cases hc : 1 < cnt s
      · simp only [List.filterMap_cons, if_pos hc, alookup, if_pos rfl]
        simp [hc]
      · simp only [List.filterMap_cons, if_neg hc]
        rw [alookup_filterMap_not_mem cnt rest s hnd.1]
        simp [hc]
    · have hL : alookup ((a :: rest).filterMap
          (fun t => if 1 < cnt t then some (t, cnt t) else none)) s
          = alookup (rest.filterMap
          (fun t => if 1 < cnt t then some (t, cnt t) else none)) s := by
        by_cases hc : 1 < cnt a
        · simp only [List.filterMap_cons, if_pos hc, alookup]
          rw [if_neg (fun hEq => hs hEq.symm)]
        · simp only [List.filterMap_cons, if_neg hc]
      rw [hL, ih hnd.2]
      simp only [List.mem_cons, hs, false_or]

theorem splitOnChar_ne_nil (sep : Char) (l : List Char) :
    splitOnChar sep l ≠ [] := by
  cases l with
  | nil => simp [splitOnChar]
  | cons c rest =>
    simp only [splitOnChar]
    by_cases h : c = sep
    · simp [h]
    · simp only [if_neg h]
      cases splitOnChar sep rest <;> simp

theorem Sys.get_set_self (s : Sys) (m : Model) (b : Behavior) :
    (s.set m b).get m = b := by
  simp [Sys.get, Sys.set, alookup]

theorem Sys.get_set_ne (s : Sys) (m m2 : Model) (b : Behavior) (h : m2 ≠ m) :
    (s.set m b).get m2 = s.get m2 := by
  simp only [Sys.get, Sys.set, alookup]
  rw [if_neg (fun hEq => h hEq.symm)]

theorem mem_keys_of_alookup_some {α β : Type} [DecidableEq α]
    (l : List (α × β)) (k : α) (b : β) (h : alookup l k = some b) :
    k ∈ l.map Prod.fst := by
  induction l with
  | nil => simp [alookup] at h
  | cons p rest ih =>
    simp only [alookup] at h
    by_cases hk : p.1 = k
    · simp [hk.symm]
    · rw [if_neg hk] at h
      simp [ih h]

theorem not_mem_keys_of_alookup_none {α β : Type} [DecidableEq α]
    (l : List (α × β)) (k : α) (h : alookup l k = none) :
    k ∉ l.map Prod.fst := by
  induction l with
  | nil => simp
  | cons p rest ih =>
    simp only [alookup] at h
    by_cases hk : p.1 = k
    · rw [if_pos hk] at h
      cases h
    · rw [if_neg hk] at h
      simp only [List.map_cons, List.mem_cons]
      rintro (h1 | h1)
      · exact hk h1.symm
      · exact ih h h1

theorem alookup_some_mem {α β : Type} [DecidableEq α]
    (l : List (α × β)) (k : α) (b : β) (h : alookup l k = some b) :
    (k, b) ∈ l := by
  induction l with
  | nil => simp [alookup] at h
  | cons p rest ih =>
    simp only [alookup] at h
    by_cases hk : p.1 = k
    · rw [if_pos hk] at h
      have hp : p = (k, b) := by
        rcases p with ⟨p1, p2⟩
        have hk2 : p1 = k := hk
        have hb2 : p2 = b := Option.some_inj.mp h
        rw [hk2, hb2]
      rw [← hp]
      exact List.mem_cons_self p rest
    · rw [if_neg hk] at h
      exact List.mem_cons_of_mem p (ih h)

theorem get_foldl_set (l : List (Model × Behavior))
    (hnd : (l.map Prod.fst).Nodup) (w : Sys) (m : Model) :
    (l.foldl (fun s p => s.set p.1 p.2) w).get m
      = (alookup l m).getD (w.get m) := by
  induction l generalizing w with
  | nil => simp [alookup]
  | cons p rest ih =>
    simp only [List.map_cons, List.nodup_cons] at hnd
    simp only [List.foldl_cons]
    rw [ih hnd.2]
    by_cases hk : p.1 = m
    · subst hk
      have hnone : alookup rest p.1 = none := by
        cases hlk : alookup rest p.1 with
        | none => rfl
        | some b => exact absurd (mem_keys_of_alookup_some rest p.1 b hlk) hnd.1
      simp [alookup, hnone, Sys.get_set_self]
    · simp only [alookup, if_neg hk]
      rw [Sys.get_set_ne w p.1 m p.2 (fun hEq => hk hEq.symm)]

theorem patchFold_inv (w : Sys) :
    ∀ (ms : List Model) (t : Tracker) (w2 : Sys),
      ((t.patchedModels.map Prod.fst).Nodup) →
      (∀ p ∈ t.patchedModels, p.2 = w.get p.1) →
      (∀ m, alookup t.patchedModels m = none → w2.get m = w.get m) →
      ((((ms.foldl (fun p m => patch_model p.1 p.2 m) (t, w2)).1.patchedModels.map
          Prod.fst).Nodup)
        ∧ (∀ p ∈ (ms.foldl (fun p m => patch_model p.1 p.2 m) (t, w2)).1.patchedModels,
            p.2 = w.get p.1)
        ∧ (∀ m, alookup
            (ms.foldl (fun p m => patch_model p.1 p.2 m) (t, w2)).1.patchedModels m = none →
            (ms.foldl (fun p m => patch_model p.1 p.2 m) (t, w2)).2.get m = w.get m)) := by
  intro ms
  induction ms with
  | nil =>
    intro t w2 h1 h2 h3
    exact ⟨h1, h2, h3⟩
  | cons m ms ih =>
    intro t w2 h1 h2 h3
    simp only [List.foldl_cons]
    by_cases hmem : (alookup t.patchedModels m).isSome
    · have hstep : patch_model t w2 m = (t, w2) := by
        simp [patch_model, hmem]
      rw [hstep]
      exact ih t w2 h1 h2 h3
    · have hnone : alookup t.patchedModels m = none := by
        cases hlk : alookup t.patchedModels m with
        | none => rfl
        | some b => rw [hlk] at hmem; simp at hmem
      have hstep : patch_model t w2 m
          = (⟨(m, w2.get m) :: t.patchedModels⟩,
             w2.set m (Behavior.patched (w2.get m))) := by
        simp [patch_model, hnone]
      rw [hstep]
      refine ih _ _ ?_ ?_ ?_
      · simp only [List.map_cons, List.nodup_cons]
        exact ⟨not_mem_keys_of_alookup_none t.patchedModels m hnone, h1⟩
      · intro p hp
        rcases List.mem_cons.mp hp with h | h
        · rw [h]
          exact h3 m hnone
        · exact h2 p h
      · intro m2 hm2
        simp only [alookup] at hm2
        by_cases hm2m : m = m2
        · rw [if_pos hm2m] at hm2; cases hm2
        · rw [if_neg hm2m] at hm2
          rw [Sys.get_set_ne w2 m m2 _ (fun hEq => hm2m hEq.symm)]
          exact h3 m2 hm2

theorem applyPatches_unpatch_get (w : Sys) (ms : List Model) (m : Model) :
    (unpatch_all (applyPatches w ms).1 (applyPatches w ms).2).2.get m = w.get m := by
  obtain ⟨hnd, hsaved, hun⟩ := patchFold_inv w ms ⟨[]⟩ w
    (by simp) (by intro p hp; cases hp) (by intro m2 _; rfl)
  rw [show applyPatches w ms
      = ms.foldl (fun p m => patch_model p.1 p.2 m) (⟨[]⟩, w) from rfl]
  simp only [unpatch_all]
  rw [get_foldl_set _ hnd]
  cases hlk : alookup
      (ms.foldl (fun p m => patch_model p.1 p.2 m) (⟨[]⟩, w)).1.patchedModels m with
  | none =>
    simp only [Option.getD_none]
    exact hun m hlk
  | some b =>
    simp only [Option.getD_some]
    exact hsaved (m, b) (alookup_some_mem _ m b hlk)

/-! ## Claim theorems -/

/-- C1: the claim asserts that session teardown (unpatching every patched
model and disconnecting the materialization hook) runs on every exit
path of the instrumented unit, raising included.  The code violates
this: in `track_orm_cost.wrapper` the view call (`decorator.py`
line 106) sits in no `try`/`finally`, so when the view raises, lines
111–112 (`post_init.disconnect`, `tracker.unpatch_all`) never run.
Evaluating the embedded wrapper at the failing input: with one
registered model and a raising view, the model's `__getattribute__`
slot is still the patched closure and the signal is still connected
after the wrapper exits, while on the normal-return path both teardown
steps do happen. -/
theorem C1_teardown_skipped_on_raise :
    ((trackWrapper [0] ⟨[]⟩ (Except.error "boom" : Except String Nat)).2.1.get 0
        = Behavior.patched (Behavior.base 0))
    ∧ ((trackWrapper [0] ⟨[]⟩ (Except.error "boom" : Except String Nat)).2.2 = true)
    ∧ ((trackWrapper [0] ⟨[]⟩ (Except.ok 7 : Except String Nat)).2.1.get 0
        = Behavior.base 0)
    ∧ ((trackWrapper [0] ⟨[]⟩ (Except.ok 7 : Except String Nat)).2.2 = false) := by
  exact ⟨rfl, rfl, rfl, rfl⟩

/-- C2: failure transparency of `ORMQueryTracker._wrapper`: when the
underlying execution raises, the same exception propagates and exactly
one `QueryRecord`, carrying the duration measured up to the failure, is
still appended to the query log; when it succeeds, the wrapper returns
exactly the underlying result (and the same single record is appended). -/
theorem C2_failure_transparency {ε ρ : Type} (sql : String) (duration : Nat)
    (log : List QueryRecord) :
    (∀ e : ε,
      trackerWrapperCall sql duration (Except.error e : Except ε ρ) log
          = (Except.error e, log ++ [⟨sql, duration⟩])
        ∧ (trackerWrapperCall sql duration (Except.error e : Except ε ρ) log).2.length
          = log.length + 1)
    ∧ (∀ r : ρ,
      trackerWrapperCall sql duration (Except.ok r : Except ε ρ) log
          = (Except.ok r, log ++ [⟨sql, duration⟩])) := by
  constructor
  · intro e
    refine ⟨rfl, ?_⟩
    simp [trackerWrapperCall]
  · intro r
    rfl

/-- C3: the claim asserts that opening a second Session while one is
active raises an explicit error from the begin operation.  The code
violates this: `ORMQueryTracker.__enter__` performs no active-session
check and cannot fail — entering a second tracker while the first is
active succeeds and merely stacks a second wrapper on the connection,
so both trackers record subsequent statements; likewise a second
`FieldUsageTracker` silently re-patches an already-patched model,
wrapping the first tracker's closure instead of erroring. -/
theorem C3_nested_enter_no_error :
    trackerEnter 1 ⟨[]⟩ = Except.ok ⟨[1]⟩
    ∧ trackerEnter 2 ⟨[1]⟩ = Except.ok ⟨[2, 1]⟩
    ∧ isError (trackerEnter 2 ⟨[1]⟩) = false
    ∧ (patch_model ⟨[]⟩ (Sys.set ⟨[]⟩ 0 (Behavior.patched (Behavior.base 0))) 0).2.get 0
        = Behavior.patched (Behavior.patched (Behavior.base 0)) := by
  exact ⟨rfl, rfl, rfl, rfl⟩

/-- C4: `duplicate_summary` is exactly the map sending each
whitespace-collapsed statement text to its occurrence count, restricted
to texts occurring more than once; and on the statement sequence from
the specification the summary is the single cluster
`SELECT a FROM t ↦ 2`. -/
theorem C4_duplicate_summary (qs : List String) (s : String) :
    alookup (duplicateSummary qs) s
      = (if 1 < countOcc (qs.map normalizeSql) s
          then some (countOcc (qs.map normalizeSql) s) else none)
    ∧ duplicateSummary ["SELECT a FROM t", "SELECT a FROM t", "SELECT b FROM t"]
      = [("SELECT a FROM t", 2)] := by
  constructor
  · have h : alookup (duplicateSummary qs) s
        = if s ∈ firstDedup (qs.map normalizeSql) ∧ 1 < countOcc (qs.map normalizeSql) s
          then some (countOcc (qs.map normalizeSql) s) else none :=
      alookup_dupAux (countOcc (qs.map normalizeSql))
        (firstDedup (qs.map normalizeSql)) s (nodup_firstDedup _)
    rw [h]
    by_cases hc : 1 < countOcc (qs.map normalizeSql) s
    · have hmem : s ∈ qs.map normalizeSql :=
        (countOcc_pos_iff_mem _ s).mp (Nat.lt_trans Nat.zero_lt_one hc)
      simp [hc, (mem_firstDedup _ s).mpr hmem]
    · simp [hc]
  · decide

/-- C5: prefetch grouping is greedy, adjacent, and non-backtracking: on
the empty tail the scan stops; a lone statement forms a single-member
unit; when the next statement passes the membership-filter test
(`WHERE` plus `IN`), the current and next statements form one
two-member unit and the scan resumes after both (the consumed statement
is never reconsidered as a parent); otherwise the current statement
forms a single-member unit and the scan resumes at the next statement. -/
theorem C5_prefetch_grouping (a b : String) (rest : List String) :
    scanUnits false [] = []
    ∧ scanUnits false [a] = [⟨a, none⟩]
    ∧ (isPrefetchSql b = true →
        scanUnits false (a :: b :: rest) = ⟨a, some b⟩ :: scanUnits false rest)
    ∧ (isPrefetchSql b = false →
        scanUnits false (a :: b :: rest) = ⟨a, none⟩ :: scanUnits false (b :: rest)) :=
  ⟨scanUnits_nil, scanUnits_singleton a,
    scanUnits_cons_pref a b rest, scanUnits_cons_nonpref a b rest⟩

/-- C5 witness: the specification's concrete example — a parent query
followed by a `WHERE ... IN` child query forms one two-member unit. -/
theorem C5_prefetch_grouping_witness :
    isPrefetchSql "SELECT * FROM child WHERE parent_id IN (1, 2, 3)" = true
    ∧ scanUnits false
        ["SELECT * FROM parent", "SELECT * FROM child WHERE parent_id IN (1, 2, 3)"]
      = [⟨"SELECT * FROM parent",
          some "SELECT * FROM child WHERE parent_id IN (1, 2, 3)"⟩] := by
  refine ⟨by decide, ?_⟩
  have h := (C5_prefetch_grouping "SELECT * FROM parent"
      "SELECT * FROM child WHERE parent_id IN (1, 2, 3)" []).2.2.1 (by decide)
  simpa using h

/-- C6: for every Session, empty ones included, the analysis loop covers
exactly one record per captured statement: flattening the scan's
logical units reproduces the statement list itself (each statement
exactly once, in sequence order), so in particular the record count
equals the statement count. -/
theorem C6_one_record_per_statement (qs : List String) :
    ((scanUnits false qs).map LU.members).flatten = qs
    ∧ ((scanUnits false qs).map LU.members).flatten.length = qs.length := by
  have h := scanUnits_join_aux qs.length qs (Nat.le_refl _)
  exact ⟨h, by rw [h]⟩

/-- C7 counterexample: the claim says the projection expressions are
split on top-level separators, but `extract_fields_from_sql` splits the
capture group on every comma, including commas nested inside
parentheses.  On `SELECT f(a, b) FROM t` the source function returns
`["f(a", "b)"]`, while the top-level split the claim describes
(`extractFieldsSpecTopLevel`) returns `["f(a, b)"]`. -/
theorem C7_column_split_counterexample :
    extract_fields_from_sql "SELECT f(a, b) FROM t" = ["f(a", "b)"]
    ∧ extractFieldsSpecTopLevel "SELECT f(a, b) FROM t" = ["f(a, b)"]
    ∧ extract_fields_from_sql "SELECT f(a, b) FROM t"
        ≠ extractFieldsSpecTopLevel "SELECT f(a, b) FROM t" := by
  exact ⟨by decide, by decide, by decide⟩

/-- C7 amended: for every operation-text string, if no projection clause
(`SELECT ... FROM`) is found the result is the wildcard marker `["*"]`;
otherwise the result is the captured projection text split on every
comma separator (nested ones included) with qualifiers and quoting
stripped from each piece; extraction is total and never returns an
empty list. -/
theorem C7_extraction_amended (sql : String) :
    extract_fields_from_sql sql ≠ []
    ∧ (reSearch sql.toList = none → extract_fields_from_sql sql = ["*"])
    ∧ (∀ g, reSearch sql.toList = some g →
        extract_fields_from_sql sql = (splitOnChar ',' g).map cleanCol) := by
  refine ⟨?_, ?_, ?_⟩
  · unfold extract_fields_from_sql
    cases hr : reSearch sql.toList with
    | none => simp
    | some g =>
      simp only []
      intro hcontra
      exact splitOnChar_ne_nil ',' g (List.map_eq_nil_iff.mp hcontra)
  · intro h
    unfold extract_fields_from_sql
    rw [h]
  · intro g h
    unfold extract_fields_from_sql
    rw [h]

/-- C7 amended witness: on the qualified-and-quoted projection from the
claim, the regex finds the group and extraction yields the bare column
name. -/
theorem C7_extraction_amended_witness :
    reSearch ("SELECT \"tbl\".\"col\" FROM t").toList
        = some ("\"tbl\".\"col\"".toList)
    ∧ extract_fields_from_sql "SELECT \"tbl\".\"col\" FROM t" = ["col"] := by
  refine ⟨by decide, ?_⟩
  have h := (C7_extraction_amended "SELECT \"tbl\".\"col\" FROM t").2.2
      ("\"tbl\".\"col\"".toList) (by decide)
  rw [h]
  decide

/-- C8: field-read patching round-trips: applying `patch_model` twice to
the same model is a no-op (the second application is rejected by the
`_patched_models` membership guard, whatever the tracker's prior
state); after a fresh tracker patches any sequence of models,
`unpatch_all` restores every model's `__getattribute__` slot to exactly
its value before the first patch; and starting from the pristine world
every slot is back to the unwrapped Django behavior `Behavior.base`,
which performs no tracking of fresh objects. -/
theorem C8_patch_roundtrip :
    (∀ (t : Tracker) (w : Sys) (m : Model),
        patch_model (patch_model t w m).1 (patch_model t w m).2 m = patch_model t w m)
    ∧ (∀ (w : Sys) (ms : List Model) (m : Model),
        (unpatch_all (applyPatches w ms).1 (applyPatches w ms).2).2.get m = w.get m)
    ∧ (∀ (ms : List Model) (m : Model),
        (unpatch_all (applyPatches ⟨[]⟩ ms).1 (applyPatches ⟨[]⟩ ms).2).2.get m
          = Behavior.base m) := by
  refine ⟨?_, applyPatches_unpatch_get, ?_⟩
  · intro t w m
    by_cases h : (alookup t.patchedModels m).isSome
    · simp [patch_model, h]
    · have hnone : alookup t.patchedModels m = none := by
        cases hlk : alookup t.patchedModels m with
        | none => rfl
        | some b => rw [hlk] at h; simp at h
      have h1 : patch_model t w m
          = (⟨(m, w.get m) :: t.patchedModels⟩,
             w.set m (Behavior.patched (w.get m))) := by
        simp [patch_model, hnone]
      rw [h1]
      simp [patch_model, alookup]
  · intro ms m
    rw [applyPatches_unpatch_get ⟨[]⟩ ms m]
    rfl

/-- C9: the argument-validation phase of the `orm_cost` command raises a
user-facing `CommandError` exactly on the configuration errors the
specification lists — unresolvable target (missing colon separator,
unknown module, or unknown attribute), a non-callable target, or a
signature other than zero parameters or a `request` parameter — and
never crashes: on all other inputs it succeeds. -/
theorem C9_config_errors (env : Env) (target : String) :
    isError (handlePrepare env target) = configError env target := by
  unfold handlePrepare resolve_target configError
  cases hsp : splitOnceColon target with
  | none => simp [hsp, isError]
  | some p =>
    rcases p with ⟨modulePath, objectName⟩
    cases hm : alookup env.modules modulePath with
    | none => simp [hm, isError]
    | some attrs =>
      cases ha : alookup attrs objectName with
      | none => simp [hm, ha, isError]
      | some o =>
        cases hc : o.callable with
        | false => simp [hm, ha, hc, isError]
        | true =>
          by_cases hr : "request" ∈ o.params
          · simp [hm, ha, hc, hr, isError]
          · by_cases hp : o.params = []
            · simp [hm, ha, hc, hr, hp, isError]
            · simp [hm, ha, hc, hr, hp, isError, List.isEmpty_iff]

/-- C10: in the `orm_cost` command, when the profiled callable itself
raises, `Command.handle` converts the exception into a `CommandError`
carrying the message `Execution failed: <original message>` — the
original exception never propagates out of the command — and no report
is produced for that run (the command's outcome is the error, never an
`ok` carrying a `Report`). -/
theorem C10_exec_failure_to_command_error (env : Env) (target : String)
    (exec : CallPlan → Except String Nat) (qs : List QueryRecord) (wall : Nat)
    (o : PyObj) (plan : CallPlan) (e : String)
    (hprep : handlePrepare env target = Except.ok (o, plan))
    (hexec : exec plan = Except.error e) :
    handleCmd env target exec qs wall
        = Except.error (CmdErr.commandError ("Execution failed: " ++ e))
    ∧ ∀ p, handleCmd env target exec qs wall ≠ Except.ok p := by
  have h : handleCmd env target exec qs wall
      = Except.error (CmdErr.commandError ("Execution failed: " ++ e)) := by
    unfold handleCmd
    rw [hprep]
    simp only []
    rw [hexec]
  refine ⟨h, ?_⟩
  intro p hcontra
  rw [h] at hcontra
  cases hcontra

/-- C10 witness: a concrete resolvable zero-argument target whose
execution raises `boom` yields exactly the converted `CommandError`. -/
theorem C10_exec_failure_witness :
    handlePrepare ⟨[("myapp", [("task", ⟨true, []⟩)])]⟩ "myapp:task"
        = Except.ok (⟨true, []⟩, CallPlan.noArgs)
    ∧ handleCmd ⟨[("myapp", [("task", ⟨true, []⟩)])]⟩ "myapp:task"
        (fun _ => Except.error "boom") [] 5
      = Except.error (CmdErr.commandError ("Execution failed: " ++ "boom")) := by
  refine ⟨rfl, ?_⟩
  exact (C10_exec_failure_to_command_error ⟨[("myapp", [("task", ⟨true, []⟩)])]⟩
    "myapp:task" (fun _ => Except.error "boom") [] 5 ⟨true, []⟩ CallPlan.noArgs
    "boom" rfl rfl).1
